import Mathlib

/-
Verification of the ILI9488 display driver (src/ili9488.py) against its
natural-language specification.  The driver is shallowly embedded: pure
Python functions become Lean functions on `Nat`/`Int`, the mutable scroll
state becomes explicit state passing, and fallible operations
(`struct.pack` range checks, input validation) return `Option`/`Except`.
-/

namespace ILI9488

/-! ## Data model and operations -/

/-- `struct.pack(">BBB", r, g, b)`: three unsigned bytes; `struct.error`
(modelled as `none`) if a value is out of byte range. -/
def packBBB (r g b : Nat) : Option (List Nat) :=
  if r ≤ 255 ∧ g ≤ 255 ∧ b ≤ 255 then some [r, g, b] else none

/-- `_encode_pixel` from ili9488.py (lines 125-131): expand a packed 16-bit
RGB565 color into three full-range 8-bit channel bytes by proportional
truncating integer scaling.  The binary masks `0b1111_1000_0000_0000`,
`0b0000_0111_1110_0000`, `0b0000_0000_0001_1111` of the source are written
in hexadecimal. -/
def _encode_pixel (color : Nat) : Option (List Nat) :=
  let r := ((color &&& 0xF800) >>> 11) * 255 / 31
  let g := ((color &&& 0x07E0) >>> 5) * 255 / 63
  let b := (color &&& 0x001F) * 255 / 31
  packBBB r g b

/-- Abstract PIL image: a color-mode string, a size, and per-coordinate
RGB channel data.  `chan i j` gives the channels at column `i`, row `j`
(after `convert("RGB")`; an RGBA alpha channel is already dropped). -/
structure Img where
  mode : String
  width : Nat
  height : Nat
  chan : Nat → Nat → Nat × Nat × Nat

/-- The 8-bit channels PIL hands out for a pixel: each channel of an RGB
or RGBA image is a single byte, which the `% 256` enforces. -/
def Img.px (img : Img) (i j : Nat) : Nat × Nat × Nat :=
  ((img.chan i j).1 % 256, (img.chan i j).2.1 % 256, (img.chan i j).2.2 % 256)

/-- Modelled from the spec: `color565` is imported from
`adafruit_rgb_display.rgb` and is not under src/; per spec §4.2 it
"packs 8-bit channels into RGB565 by truncating to 5/6/5 bits". -/
def color565 (r g b : Nat) : Nat :=
  r / 8 * 2048 + g / 4 * 32 + b / 8

/-- Modelled from the spec: `img.rotate(rotation, expand=True)` is a
collaborator responsibility ("generic image transform", spec §4.4).  For
the right angles the expanded canvas swaps its dimensions (90/270) or
keeps them (180); the pixel permutation is the standard one. -/
def rotateImg (img : Img) (rotation : Int) : Img :=
  if rotation = 90 then
    { img with
      width := img.height
      height := img.width
      chan := fun i j => img.chan j (img.height - 1 - i) }
  else if rotation = 180 then
    { img with
      chan := fun i j => img.chan (img.width - 1 - i) (img.height - 1 - j) }
  else if rotation = 270 then
    { img with
      width := img.height
      height := img.width
      chan := fun i j => img.chan (img.width - 1 - j) i }
  else img

/-- The addressing window handed to `self._block` in `image`
(line 173).  Python ints may be negative, so coordinates are `Int`. -/
structure Window where
  x0 : Int
  y0 : Int
  x1 : Int
  y1 : Int
deriving DecidableEq

/-- One SPI register write: a command byte plus its parameter payload;
`none` models a no-data command (and a `struct.pack` whose arguments are
out of range, which in Python raises before the write happens). -/
structure BusWrite where
  cmd : Nat
  params : Option (List Nat)
deriving DecidableEq

/-- One pixel of the numpy branch of `image` (lines 159-163): channels
are widened to uint16, scaled (`>> 3` / `>> 2` truncation then
`*255//max` with uint16 wrap-around), and truncated back to uint8 by
`astype("uint8")`. -/
def numpyPixel (p : Nat × Nat × Nat) : List Nat :=
  [(p.1 >>> 3) * 255 % 65536 / 31 % 256,
   (p.2.1 >>> 2) * 255 % 65536 / 63 % 256,
   (p.2.2 >>> 3) * 255 % 65536 / 31 % 256]

/-- The numpy branch's full byte stream:
`bytes(data.flatten().astype("uint8"))` flattens the `(height, width, 3)`
array row-major. -/
def numpyPixels (img : Img) : List Nat :=
  (List.range img.height).flatMap fun j =>
    (List.range img.width).flatMap fun i => numpyPixel (img.px i j)

/-- The three bytearray assignments of the fallback branch for pixel
`(i, j)` (lines 170-172), writing into positions
`3*(j*imwidth+i) + 0/1/2` of the buffer. -/
def fallbackWrite (w : Nat) (buf : List Nat) (i j pix : Nat) : List Nat :=
  ((buf.set (3 * (j * w + i)) (((pix &&& 0xF800) >>> 11) * 255 / 31)).set
      (3 * (j * w + i) + 1) (((pix &&& 0x07E0) >>> 5) * 255 / 63)).set
    (3 * (j * w + i) + 2) ((pix &&& 0x001F) * 255 / 31)

/-- The inner `for j in range(imheight)` loop of the fallback branch,
for a fixed column `i`: `pv j` is the `color565`-packed pixel of row `j`. -/
def colFold (w i h : Nat) (pv : Nat → Nat) (buf : List Nat) : List Nat :=
  (List.range h).foldl (fun b j => fallbackWrite w b i j (pv j)) buf

/-- The outer `for i in range(imwidth)` loop of the fallback branch,
run for the first `wcur` columns: `pv i j` is the packed pixel of
column `i`, row `j`. -/
def rowsFold (w h : Nat) (pv : Nat → Nat → Nat) (wcur : Nat)
    (buf : List Nat) : List Nat :=
  (List.range wcur).foldl (fun b i => colFold w i h (pv i) b) buf

/-- The fallback (non-numpy) branch of `image` (lines 164-172): a
`bytearray(imwidth * imheight * 3)` of zeros filled by the nested loop
`for i in range(imwidth): for j in range(imheight)`, each pixel packed
through `color565` and re-expanded channel-wise. -/
def fallbackPixels (img : Img) : List Nat :=
  rowsFold img.width img.height
    (fun i j => color565 (img.px i j).1 (img.px i j).2.1 (img.px i j).2.2)
    img.width (List.replicate (img.width * img.height * 3) 0)

/-- The byte value the fallback branch stores at offset
`3*(j*imwidth+i) + k` for a packed pixel value (lines 170-172). -/
def pixByte (pix : Nat) : Nat → Nat
  | 0 => ((pix &&& 0xF800) >>> 11) * 255 / 31
  | 1 => ((pix &&& 0x07E0) >>> 5) * 255 / 63
  | _ => (pix &&& 0x001F) * 255 / 31

/-- The controller state stored by `__init__` (lines 96-121): panel
size, configured rotation, and the `_scroll` offset cache. -/
structure Ctl where
  width : Nat
  height : Nat
  rotation : Int
  scroll : Int
deriving DecidableEq

/-- `__init__` stores the panel geometry and sets `self._scroll = 0`
(line 121). -/
def init (width height : Nat) (rotation : Int) : Ctl :=
  ⟨width, height, rotation, 0⟩

/-- The effective image streamed by `image`: the input buffer, rotated
when the effective rotation (the argument, defaulting to the
controller's configured rotation) is nonzero (lines 143-150). -/
def effectiveImg (ctl : Ctl) (img : Img) (rotation : Option Int) : Img :=
  let rot := rotation.getD ctl.rotation
  if rot ≠ 0 then rotateImg img rot else img

/-- `image` (lines 133-173): validation in source order (color mode,
rotation, bounds after rotation), then one of the two pixel-conversion
branches, then the `self._block(x, y, x + imwidth - 1, y + imheight - 1,
pixels)` call, whose arguments are returned.  A raised `ValueError` is
the `Except.error` case. -/
def image (useNumpy : Bool) (ctl : Ctl) (img : Img) (rotation : Option Int)
    (x y : Int) : Except String (Window × List Nat) :=
  let rot := rotation.getD ctl.rotation
  if ¬ (img.mode = "RGB" ∨ img.mode = "RGBA") then
    Except.error "Image must be in mode RGB or RGBA"
  else if ¬ (rot = 0 ∨ rot = 90 ∨ rot = 180 ∨ rot = 270) then
    Except.error "Rotation must be 0/90/180/270"
  else
    let img2 := if rot ≠ 0 then rotateImg img rot else img
    if x + (img2.width : Int) > (ctl.width : Int) ∨
        y + (img2.height : Int) > (ctl.height : Int) then
      Except.error "Image must not exceed dimensions of display"
    else
      let pixels := if useNumpy then numpyPixels img2 else fallbackPixels img2
      Except.ok (⟨x, y, x + (img2.width : Int) - 1, y + (img2.height : Int) - 1⟩,
        pixels)

/-- `struct.pack(">HH", a, b)`: two big-endian unsigned 16-bit values;
`none` models the `struct.error` raised when a value is out of range. -/
def packHH (a b : Int) : Option (List Nat) :=
  if 0 ≤ a ∧ a ≤ 0xFFFF ∧ 0 ≤ b ∧ b ≤ 0xFFFF then
    some [a.toNat / 256, a.toNat % 256, b.toNat / 256, b.toNat % 256]
  else none

/-- Modelled from the spec (§4.3): `self._block(x0, y0, x1, y1, data)`
lives in `adafruit_rgb_display.rgb`, not under src/; it issues COLUMN_SET
and PAGE_SET with big-endian 16-bit bounds and then RAM_WRITE followed by
the pixel bytes. -/
def blockWrites (win : Window) (px : List Nat) : List BusWrite :=
  [⟨0x2A, packHH win.x0 win.x1⟩, ⟨0x2B, packHH win.y0 win.y1⟩, ⟨0x2C, some px⟩]

/-- The bus traffic of one `image` call: a raised validation error
(source lines 145-157) happens before `self._block`, so an erroring call
emits nothing. -/
def imageWrites (useNumpy : Bool) (ctl : Ctl) (img : Img)
    (rotation : Option Int) (x y : Int) : List BusWrite :=
  match image useNumpy ctl img rotation x y with
  | Except.error _ => []
  | Except.ok (win, px) => blockWrites win px

/-- `struct.pack(">H", v)`: one big-endian unsigned 16-bit value. -/
def packH (v : Int) : Option (List Nat) :=
  if 0 ≤ v ∧ v ≤ 0xFFFF then some [v.toNat / 256, v.toNat % 256] else none

/-- `scroll` (lines 175-183): querying with `None` returns the cached
offset and touches nothing; `scroll(dy)` stores
`(self._scroll + dy) % self.height` (Python `%` is floored modulo, i.e.
`Int.fmod`) and writes register `0x37` with the new offset packed
big-endian.  Result: (returned value, new state, emitted bus writes). -/
def scroll (ctl : Ctl) (dy : Option Int) :
    Option Int × Ctl × List BusWrite :=
  match dy with
  | none => (some ctl.scroll, ctl, [])
  | some dy =>
    let s := Int.fmod (ctl.scroll + dy) (ctl.height : Int)
    (none, { ctl with scroll := s }, [⟨0x37, packH s⟩])

/-- A public drawing operation, for the state invariant: `fill` and
`pixel` (inherited from `DisplaySPI`, spec §4.4) only compute a window
and stream pixels, touching no scroll state; `image` (src lines 133-173)
likewise never assigns `_scroll`. -/
inductive Op where
  | fill (color : Nat)
  | pixel (x y : Int) (color : Nat)
  | img (useNumpy : Bool) (im : Img) (rotation : Option Int) (x y : Int)
  | scrollBy (dy : Int)
  | scrollQuery

/-- State effect of one public operation. -/
def step (ctl : Ctl) : Op → Ctl
  | Op.fill _ => ctl
  | Op.pixel _ _ _ => ctl
  | Op.img _ _ _ _ _ => ctl
  | Op.scrollBy dy => (scroll ctl (some dy)).2.1
  | Op.scrollQuery => (scroll ctl none).2.1

/-- State after a sequence of public operations. -/
def runOps (ctl : Ctl) (ops : List Op) : Ctl :=
  ops.foldl step ctl

/-- Command constant `_COLUMN_SET` (line 52). -/
def _COLUMN_SET : Nat := 0x2A

/-- Command constant `_PAGE_SET` (line 53). -/
def _PAGE_SET : Nat := 0x2B

/-- Command constant `_RAM_WRITE` (line 54). -/
def _RAM_WRITE : Nat := 0x2C

/-- Command constant `_RAM_READ` (line 55). -/
def _RAM_READ : Nat := 0x2E

/-- The fixed initialization table `_INIT` (lines 56-90), transcribed
byte for byte; a `none` payload is a command that takes no data. -/
def _INIT : List (Nat × Option (List Nat)) :=
  [(0xE0, some [0x00, 0x03, 0x09, 0x08, 0x16, 0x0A, 0x3F, 0x78, 0x4C, 0x09,
                0x0A, 0x08, 0x16, 0x1A, 0x0F]),
   (0xE1, some [0x00, 0x16, 0x19, 0x03, 0x0F, 0x05, 0x32, 0x45, 0x46, 0x04,
                0x0E, 0x0D, 0x35, 0x37, 0x0F]),
   (0xC0, some [0x17, 0x15]),
   (0xC1, some [0x41]),
   (0xC5, some [0x00, 0x12, 0x80]),
   (0x36, some [0x48]),
   (0x3A, some [0x66]),
   (0xB0, some [0x80]),
   (0xB1, some [0xA0]),
   (0xB4, some [0x02]),
   (0xB6, some [0x02, 0x02]),
   (0xE9, some [0x00]),
   (0xF7, some [0xA9, 0x51, 0x2C, 0x82]),
   (0x11, none),
   (0x29, none)]

/-- A small concrete 2x2 RGB image used to instantiate theorems with
hypotheses at concrete inputs. -/
def sampleImg : Img :=
  ⟨"RGB", 2, 2, fun _ _ => (8, 250, 16)⟩

/-! ## Bit-field arithmetic -/

lemma and_div_two_pow (a b k : Nat) :
    (a &&& b) / 2 ^ k = (a / 2 ^ k) &&& (b / 2 ^ k) := by
  induction k with
  | zero => simp
  | succ k ih =>
    rw [pow_succ, ← Nat.div_div_eq_div_mul, ← Nat.div_div_eq_div_mul,
      ← Nat.div_div_eq_div_mul, ih, Nat.and_div_two]

lemma maskR_eq (c : Nat) : (c &&& 0xF800) >>> 11 = c / 2048 % 32 := by
  have h := Nat.and_pow_two_sub_one_eq_mod (c / 2048) 5
  rw [Nat.shiftRight_eq_div_pow, and_div_two_pow]
  norm_num at h ⊢
  exact h

lemma maskG_eq (c : Nat) : (c &&& 0x07E0) >>> 5 = c / 32 % 64 := by
  have h := Nat.and_pow_two_sub_one_eq_mod (c / 32) 6
  rw [Nat.shiftRight_eq_div_pow, and_div_two_pow]
  norm_num at h ⊢
  exact h

lemma maskB_eq (c : Nat) : c &&& 0x001F = c % 32 := by
  have h := Nat.and_pow_two_sub_one_eq_mod c 5
  norm_num at h ⊢
  exact h

lemma mask6_eq (c : Nat) : c &&& 0x3F = c % 64 := by
  have h := Nat.and_pow_two_sub_one_eq_mod c 6
  norm_num at h ⊢
  exact h

lemma shiftRight3_eq (c : Nat) : c >>> 3 = c / 8 := by
  rw [Nat.shiftRight_eq_div_pow]

lemma shiftRight2_eq (c : Nat) : c >>> 2 = c / 4 := by
  rw [Nat.shiftRight_eq_div_pow]

lemma shiftRight5_eq (c : Nat) : c >>> 5 = c / 32 := by
  rw [Nat.shiftRight_eq_div_pow]

lemma shiftRight11_eq (c : Nat) : c >>> 11 = c / 2048 := by
  rw [Nat.shiftRight_eq_div_pow]

/-! ## Indexing the numpy byte stream -/

lemma flatMap_uniform_length (m : Nat) (f : Nat → List Nat)
    (hf : ∀ i, (f i).length = m) (w : Nat) :
    ((List.range w).flatMap f).length = w * m := by
  induction w with
  | zero => simp
  | succ w ih =>
    rw [List.range_succ]
    simp [ih, hf, Nat.succ_mul]

lemma flatMap_uniform_getElem (m : Nat) (f : Nat → List Nat)
    (hf : ∀ i, (f i).length = m) (w i k : Nat) (hi : i < w) (hk : k < m) :
    ((List.range w).flatMap f)[m * i + k]? = (f i)[k]? := by
  induction w with
  | zero => omega
  | succ w ih =>
    rw [List.range_succ, List.flatMap_append]
    have hlen : ((List.range w).flatMap f).length = w * m :=
      flatMap_uniform_length m f hf w
    by_cases h : i < w
    · rw [List.getElem?_append_left]
      · exact ih h
      · rw [hlen]
        have h2 : m * (i + 1) ≤ m * w := Nat.mul_le_mul_left m h
        have h3 : m * (i + 1) = m * i + m := by ring
        have h4 : m * w = w * m := Nat.mul_comm m w
        omega
    · have hiw : i = w := by omega
      rw [List.getElem?_append_right]
      · rw [hlen]
        have h4 : m * i = w * m := by rw [hiw]; ring
        have h5 : m * i + k - w * m = k := by omega
        rw [h5, hiw]
        simp
      · rw [hlen]
        have h4 : m * i = w * m := by rw [hiw]; ring
        omega

lemma numpyPixel_length (p : Nat × Nat × Nat) : (numpyPixel p).length = 3 :=
  rfl

lemma numpyPixels_length (img : Img) :
    (numpyPixels img).length = img.height * (img.width * 3) := by
  unfold numpyPixels
  exact flatMap_uniform_length _ _
    (fun j => flatMap_uniform_length 3 _ (fun i => numpyPixel_length _)
      img.width) img.height

lemma numpyPixels_getElem (img : Img) (i j k : Nat)
    (hi : i < img.width) (hj : j < img.height) (hk : k < 3) :
    (numpyPixels img)[3 * (j * img.width + i) + k]? =
      (numpyPixel (img.px i j))[k]? := by
  unfold numpyPixels
  have h1 : 3 * (j * img.width + i) + k = img.width * 3 * j + (3 * i + k) := by
    ring
  rw [h1,
    flatMap_uniform_getElem (img.width * 3) _
      (fun j => flatMap_uniform_length 3 _ (fun _ => numpyPixel_length _)
        img.width)
      img.height j (3 * i + k) hj (by omega)]
  exact flatMap_uniform_getElem 3 _ (fun _ => numpyPixel_length _)
    img.width i k hi hk

/-! ## Indexing the fallback byte stream -/

lemma colFold_succ (w i h : Nat) (pv : Nat → Nat) (buf : List Nat) :
    colFold w i (h + 1) pv buf =
      fallbackWrite w (colFold w i h pv buf) i h (pv h) := by
  unfold colFold
  rw [List.range_succ, List.foldl_append]
  rfl

lemma rowsFold_succ (w h : Nat) (pv : Nat → Nat → Nat) (wcur : Nat)
    (buf : List Nat) :
    rowsFold w h pv (wcur + 1) buf =
      colFold w wcur h (pv wcur) (rowsFold w h pv wcur buf) := by
  unfold rowsFold
  rw [List.range_succ, List.foldl_append]
  rfl

lemma fallbackWrite_length (w : Nat) (buf : List Nat) (i j pix : Nat) :
    (fallbackWrite w buf i j pix).length = buf.length := by
  simp [fallbackWrite]

lemma colFold_length (w i h : Nat) (pv : Nat → Nat) (buf : List Nat) :
    (colFold w i h pv buf).length = buf.length := by
  induction h with
  | zero => rfl
  | succ h ih => rw [colFold_succ, fallbackWrite_length, ih]

lemma rowsFold_length (w h : Nat) (pv : Nat → Nat → Nat) (wcur : Nat)
    (buf : List Nat) :
    (rowsFold w h pv wcur buf).length = buf.length := by
  induction wcur with
  | zero => rfl
  | succ wc ih => rw [rowsFold_succ, colFold_length, ih]

lemma slot_ne_col {w i i' j j' k k' : Nat} (hii' : i ≠ i') (hi : i < w)
    (hi' : i' < w) (hk : k < 3) (hk' : k' < 3) :
    3 * (j * w + i) + k ≠ 3 * (j' * w + i') + k' := by
  intro h
  have h3 : j * w + i = j' * w + i' := by
    set a := j * w + i
    set b := j' * w + i'
    omega
  apply hii'
  have e1 : (j * w + i) % w = i := by
    rw [Nat.add_comm, Nat.add_mul_mod_self_right, Nat.mod_eq_of_lt hi]
  have e2 : (j' * w + i') % w = i' := by
    rw [Nat.add_comm, Nat.add_mul_mod_self_right, Nat.mod_eq_of_lt hi']
  rw [← e1, ← e2, h3]

lemma slot_ne_row {w i j j' k k' : Nat} (hjj' : j ≠ j') (hw : 0 < w)
    (hk : k < 3) (hk' : k' < 3) :
    3 * (j * w + i) + k ≠ 3 * (j' * w + i) + k' := by
  intro h
  have h3 : j * w = j' * w := by
    set a := j * w
    set b := j' * w
    omega
  exact hjj' (Nat.eq_of_mul_eq_mul_right hw h3)

lemma fallbackWrite_getElem_self (w : Nat) (buf : List Nat) (i j pix k : Nat)
    (hk : k < 3) (hlen : 3 * (j * w + i) + 2 < buf.length) :
    (fallbackWrite w buf i j pix)[3 * (j * w + i) + k]? =
      some (pixByte pix k) := by
  unfold fallbackWrite
  obtain rfl | rfl | rfl : k = 0 ∨ k = 1 ∨ k = 2 := by omega
  · simp only [Nat.add_zero]
    rw [List.getElem?_set_ne (by omega), List.getElem?_set_ne (by omega),
      List.getElem?_set_self (by omega)]
    rfl
  · rw [List.getElem?_set_ne (by omega),
      List.getElem?_set_self (by rw [List.length_set]; omega)]
    rfl
  · rw [List.getElem?_set_self
      (by rw [List.length_set, List.length_set]; omega)]
    rfl

lemma fallbackWrite_getElem_ne (w : Nat) (buf : List Nat) (i j pix n : Nat)
    (hn : ∀ k, k < 3 → n ≠ 3 * (j * w + i) + k) :
    (fallbackWrite w buf i j pix)[n]? = buf[n]? := by
  unfold fallbackWrite
  rw [List.getElem?_set_ne (by have := hn 2 (by norm_num); omega),
    List.getElem?_set_ne (by have := hn 1 (by norm_num); omega),
    List.getElem?_set_ne (by have := hn 0 (by norm_num); omega)]

lemma colFold_getElem_hit (w i h : Nat) (pv : Nat → Nat) (buf : List Nat)
    (j k : Nat) (hw : 0 < w) (hj : j < h) (hk : k < 3)
    (hlen : 3 * (j * w + i) + 2 < buf.length) :
    (colFold w i h pv buf)[3 * (j * w + i) + k]? =
      some (pixByte (pv j) k) := by
  induction h with
  | zero => omega
  | succ h ih =>
    rw [colFold_succ]
    by_cases hj' : j < h
    · rw [fallbackWrite_getElem_ne]
      · exact ih hj'
      · intro k' hk'
        exact slot_ne_row (by omega) hw hk hk'
    · have hjh : j = h := by omega
      subst hjh
      exact fallbackWrite_getElem_self w _ i j (pv j) k hk
        (by rw [colFold_length]; exact hlen)

lemma colFold_getElem_ne (w i h : Nat) (pv : Nat → Nat) (buf : List Nat)
    (n : Nat) (hn : ∀ j k, j < h → k < 3 → n ≠ 3 * (j * w + i) + k) :
    (colFold w i h pv buf)[n]? = buf[n]? := by
  induction h with
  | zero => rfl
  | succ h ih =>
    rw [colFold_succ, fallbackWrite_getElem_ne]
    · exact ih (fun j k hj hk => hn j k (by omega) hk)
    · exact fun k hk => hn h k (by omega) hk

lemma rowsFold_getElem_hit (w h : Nat) (pv : Nat → Nat → Nat) (wcur : Nat)
    (buf : List Nat) (i j k : Nat) (hcw : wcur ≤ w) (hicur : i < wcur)
    (hi : i < w) (hj : j < h) (hk : k < 3)
    (hlen : 3 * (j * w + i) + 2 < buf.length) :
    (rowsFold w h pv wcur buf)[3 * (j * w + i) + k]? =
      some (pixByte (pv i j) k) := by
  induction wcur with
  | zero => omega
  | succ wc ih =>
    rw [rowsFold_succ]
    by_cases hic : i < wc
    · rw [colFold_getElem_ne]
      · exact ih (by omega) hic
      · intro j' k' hj' hk'
        exact slot_ne_col (by omega) hi (by omega) hk hk'
    · have hiwc : i = wc := by omega
      subst hiwc
      exact colFold_getElem_hit w i h (pv i) _ j k (by omega) hj hk
        (by rw [rowsFold_length]; exact hlen)

lemma slot_lt {w h i j : Nat} (hi : i < w) (hj : j < h) :
    3 * (j * w + i) + 2 < w * h * 3 := by
  have h1 : (j + 1) * w ≤ h * w := Nat.mul_le_mul_right w hj
  have h2 : (j + 1) * w = j * w + w := by ring
  have h3 : h * w = w * h := Nat.mul_comm h w
  set a := j * w
  set b := w * h
  omega

lemma fallbackPixels_length (img : Img) :
    (fallbackPixels img).length = img.width * img.height * 3 := by
  unfold fallbackPixels
  rw [rowsFold_length, List.length_replicate]

lemma fallbackPixels_getElem (img : Img) (i j k : Nat)
    (hi : i < img.width) (hj : j < img.height) (hk : k < 3) :
    (fallbackPixels img)[3 * (j * img.width + i) + k]? =
      some (pixByte
        (color565 (img.px i j).1 (img.px i j).2.1 (img.px i j).2.2) k) := by
  unfold fallbackPixels
  exact rowsFold_getElem_hit img.width img.height _ img.width _ i j k
    (le_refl _) hi hi hj hk
    (by rw [List.length_replicate]; exact slot_lt hi hj)

/-! ## The two pixel-conversion branches agree -/

lemma px_lt (img : Img) (i j : Nat) :
    (img.px i j).1 < 256 ∧ (img.px i j).2.1 < 256 ∧ (img.px i j).2.2 < 256 := by
  refine ⟨?_, ?_, ?_⟩ <;> exact Nat.mod_lt _ (by norm_num)

lemma scaled31_eq (v : Nat) (hv : v ≤ 31) :
    v * 255 % 65536 / 31 % 256 = v * 255 / 31 := by
  rw [Nat.mod_eq_of_lt (show v * 255 < 65536 by omega)]
  exact Nat.mod_eq_of_lt (show v * 255 / 31 < 256 by omega)

lemma scaled63_eq (v : Nat) (hv : v ≤ 63) :
    v * 255 % 65536 / 63 % 256 = v * 255 / 63 := by
  rw [Nat.mod_eq_of_lt (show v * 255 < 65536 by omega)]
  exact Nat.mod_eq_of_lt (show v * 255 / 63 < 256 by omega)

lemma pixByte_eq_numpy (r g b : Nat) (hr : r < 256) (hg : g < 256)
    (hb : b < 256) (k : Nat) (hk : k < 3) :
    some (pixByte (color565 r g b) k) = (numpyPixel (r, g, b))[k]? := by
  obtain rfl | rfl | rfl : k = 0 ∨ k = 1 ∨ k = 2 := by omega
  · have hR : (numpyPixel (r, g, b))[0]? =
        some ((r >>> 3) * 255 % 65536 / 31 % 256) := rfl
    have h1 : color565 r g b / 2048 % 32 = r / 8 := by
      unfold color565
      omega
    rw [hR, shiftRight3_eq, scaled31_eq (r / 8) (by omega)]
    simp only [pixByte, maskR_eq, h1]
  · have hG : (numpyPixel (r, g, b))[1]? =
        some ((g >>> 2) * 255 % 65536 / 63 % 256) := rfl
    have h1 : color565 r g b / 32 % 64 = g / 4 := by
      unfold color565
      omega
    rw [hG, shiftRight2_eq, scaled63_eq (g / 4) (by omega)]
    simp only [pixByte, maskG_eq, h1]
  · have hB : (numpyPixel (r, g, b))[2]? =
        some ((b >>> 3) * 255 % 65536 / 31 % 256) := rfl
    have h1 : color565 r g b % 32 = b / 8 := by
      unfold color565
      omega
    rw [hB, shiftRight3_eq, scaled31_eq (b / 8) (by omega)]
    simp only [pixByte, maskB_eq, h1]

lemma numpyPixels_eq_fallbackPixels (img : Img) :
    numpyPixels img = fallbackPixels img := by
  apply List.ext_getElem?
  intro n
  by_cases hn : n < img.width * img.height * 3
  · rcases Nat.eq_zero_or_pos img.width with hw0 | hw
    · rw [hw0] at hn
      simp at hn
    · have hk3 : n % 3 < 3 := Nat.mod_lt _ (by norm_num)
      have hi : n / 3 % img.width < img.width := Nat.mod_lt _ hw
      have hj : n / 3 / img.width < img.height := by
        have hm : n / 3 < img.width * img.height := by
          set A := img.width * img.height
          omega
        rw [Nat.div_lt_iff_lt_mul hw]
        calc n / 3 < img.width * img.height := hm
          _ = img.height * img.width := Nat.mul_comm _ _
      have hdec : n =
          3 * (n / 3 / img.width * img.width + n / 3 % img.width) + n % 3 := by
        have h1 := Nat.div_add_mod n 3
        have h2 := Nat.div_add_mod (n / 3) img.width
        have h3 : n / 3 / img.width * img.width =
            img.width * (n / 3 / img.width) := Nat.mul_comm _ _
        omega
      rw [hdec, numpyPixels_getElem img _ _ _ hi hj hk3,
        fallbackPixels_getElem img _ _ _ hi hj hk3]
      exact (pixByte_eq_numpy _ _ _ (px_lt img _ _).1 (px_lt img _ _).2.1
        (px_lt img _ _).2.2 _ hk3).symm
  · rw [List.getElem?_eq_none, List.getElem?_eq_none]
    · rw [fallbackPixels_length]
      omega
    · rw [numpyPixels_length]
      have he : img.height * (img.width * 3) = img.width * img.height * 3 := by
        ring
      omega

/-! ## Inverting `image` -/

lemma image_ok_elim (u : Bool) (ctl : Ctl) (img : Img) (rotation : Option Int)
    (x y : Int) (win : Window) (px : List Nat)
    (h : image u ctl img rotation x y = Except.ok (win, px)) :
    win = ⟨x, y, x + ((effectiveImg ctl img rotation).width : Int) - 1,
            y + ((effectiveImg ctl img rotation).height : Int) - 1⟩ ∧
    px = if u then numpyPixels (effectiveImg ctl img rotation)
         else fallbackPixels (effectiveImg ctl img rotation) := by
  simp only [image] at h
  simp only [effectiveImg]
  by_cases h1 : ¬(img.mode = "RGB" ∨ img.mode = "RGBA")
  · rw [if_pos h1] at h
    cases h
  · rw [if_neg h1] at h
    by_cases h2 : ¬(rotation.getD ctl.rotation = 0 ∨
        rotation.getD ctl.rotation = 90 ∨ rotation.getD ctl.rotation = 180 ∨
        rotation.getD ctl.rotation = 270)
    · rw [if_pos h2] at h
      cases h
    · rw [if_neg h2] at h
      by_cases h3 : x + ((if rotation.getD ctl.rotation ≠ 0 then
            rotateImg img (rotation.getD ctl.rotation) else img).width : Int) >
            (ctl.width : Int) ∨
          y + ((if rotation.getD ctl.rotation ≠ 0 then
            rotateImg img (rotation.getD ctl.rotation) else img).height : Int) >
            (ctl.height : Int)
      · rw [if_pos h3] at h
        cases h
      · rw [if_neg h3] at h
        injection h with h4
        exact ⟨(congrArg Prod.fst h4).symm, (congrArg Prod.snd h4).symm⟩

lemma image_error_iff (u : Bool) (ctl : Ctl) (img : Img)
    (rotation : Option Int) (x y : Int) :
    (∃ e, image u ctl img rotation x y = Except.error e) ↔
      (¬ (img.mode = "RGB" ∨ img.mode = "RGBA") ∨
        ¬ (rotation.getD ctl.rotation = 0 ∨ rotation.getD ctl.rotation = 90 ∨
            rotation.getD ctl.rotation = 180 ∨
            rotation.getD ctl.rotation = 270) ∨
        x + ((effectiveImg ctl img rotation).width : Int) > (ctl.width : Int) ∨
        y + ((effectiveImg ctl img rotation).height : Int) >
          (ctl.height : Int)) := by
  simp only [image, effectiveImg]
  by_cases h1 : ¬(img.mode = "RGB" ∨ img.mode = "RGBA")
  · rw [if_pos h1]
    exact iff_of_true ⟨_, rfl⟩ (Or.inl h1)
  · rw [if_neg h1]
    by_cases h2 : ¬(rotation.getD ctl.rotation = 0 ∨
        rotation.getD ctl.rotation = 90 ∨ rotation.getD ctl.rotation = 180 ∨
        rotation.getD ctl.rotation = 270)
    · rw [if_pos h2]
      exact iff_of_true ⟨_, rfl⟩ (Or.inr (Or.inl h2))
    · rw [if_neg h2]
      by_cases h3 : x + ((if rotation.getD ctl.rotation ≠ 0 then
            rotateImg img (rotation.getD ctl.rotation) else img).width : Int) >
            (ctl.width : Int) ∨
          y + ((if rotation.getD ctl.rotation ≠ 0 then
            rotateImg img (rotation.getD ctl.rotation) else img).height : Int) >
            (ctl.height : Int)
      · rw [if_pos h3]
        refine iff_of_true ⟨_, rfl⟩ ?_
        rcases h3 with h3 | h3
        · exact Or.inr (Or.inr (Or.inl h3))
        · exact Or.inr (Or.inr (Or.inr h3))
      · rw [if_neg h3]
        apply iff_of_false
        · rintro ⟨e, he⟩
          cases he
        · rintro (hc | hc | hc | hc)
          · exact hc (not_not.mp h1)
          · exact hc (not_not.mp h2)
          · exact h3 (Or.inl hc)
          · exact h3 (Or.inr hc)

lemma numpyPixel_entries (p : Nat × Nat × Nat) (h1 : p.1 < 256)
    (h2 : p.2.1 < 256) (h3 : p.2.2 < 256) :
    (numpyPixel p)[0]? = some ((p.1 >>> 3) * 255 / 31) ∧
    (numpyPixel p)[1]? = some ((p.2.1 >>> 2) * 255 / 63) ∧
    (numpyPixel p)[2]? = some ((p.2.2 >>> 3) * 255 / 31) := by
  refine ⟨?_, ?_, ?_⟩
  · show some ((p.1 >>> 3) * 255 % 65536 / 31 % 256) = _
    rw [shiftRight3_eq, scaled31_eq (p.1 / 8) (by omega)]
  · show some ((p.2.1 >>> 2) * 255 % 65536 / 63 % 256) = _
    rw [shiftRight2_eq, scaled63_eq (p.2.1 / 4) (by omega)]
  · show some ((p.2.2 >>> 3) * 255 % 65536 / 31 % 256) = _
    rw [shiftRight3_eq, scaled31_eq (p.2.2 / 8) (by omega)]

/-! ## Claim theorems -/

/-- C1: for every 16-bit RGB565 color `c`, `_encode_pixel c` returns
exactly the 3 bytes `(((c >> 11) & 0x1F) * 255) / 31`,
`(((c >> 5) & 0x3F) * 255) / 63`, `((c & 0x1F) * 255) / 31`, each in
[0, 255]; in particular `0x0000 ↦ (0,0,0)`, `0xFFFF ↦ (255,255,255)`,
`0xF800 ↦ (255,0,0)`, `0x07E0 ↦ (0,255,0)`, `0x001F ↦ (0,0,255)`.
(Proved for all `c`, which subsumes the claimed range `c ≤ 0xFFFF`.) -/
theorem encode_pixel_spec (c : Nat) :
    _encode_pixel c =
      some [((c >>> 11) &&& 0x1F) * 255 / 31,
            ((c >>> 5) &&& 0x3F) * 255 / 63,
            (c &&& 0x1F) * 255 / 31] ∧
    ((c >>> 11) &&& 0x1F) * 255 / 31 ≤ 255 ∧
    ((c >>> 5) &&& 0x3F) * 255 / 63 ≤ 255 ∧
    (c &&& 0x1F) * 255 / 31 ≤ 255 ∧
    _encode_pixel 0x0000 = some [0, 0, 0] ∧
    _encode_pixel 0xFFFF = some [255, 255, 255] ∧
    _encode_pixel 0xF800 = some [255, 0, 0] ∧
    _encode_pixel 0x07E0 = some [0, 255, 0] ∧
    _encode_pixel 0x001F = some [0, 0, 255] := by
  have e1 : (c >>> 11) &&& 0x1F = c / 2048 % 32 := by
    rw [shiftRight11_eq, maskB_eq]
  have e2 : (c >>> 5) &&& 0x3F = c / 32 % 64 := by
    rw [shiftRight5_eq, mask6_eq]
  refine ⟨?_, ?_, ?_, ?_, by decide, by decide, by decide, by decide,
    by decide⟩
  · simp only [_encode_pixel, packBBB, maskR_eq, maskG_eq, maskB_eq, e1, e2]
    rw [if_pos ⟨by omega, by omega, by omega⟩]
  · rw [e1]
    omega
  · rw [e2]
    omega
  · rw [maskB_eq]
    omega

/-- C2: the vectorized numpy branch and the nested-loop fallback branch
of `image` are semantically identical: on every input the two code
paths return the same window and byte-for-byte the same pixel stream. -/
theorem image_branches_spec (ctl : Ctl) (img : Img) (rotation : Option Int)
    (x y : Int) :
    image true ctl img rotation x y = image false ctl img rotation x y := by
  simp only [image]
  congr 1
  congr 1
  rw [numpyPixels_eq_fallbackPixels]
  simp

/-- C3: every successful `image` call hands `_block` exactly the window
`(x, y, x+imwidth-1, y+imheight-1)` of the effective (post-rotation)
buffer together with exactly `imwidth*imheight*3` pixel bytes, i.e. one
3-byte triple per pixel of the window area `(x1-x0+1)*(y1-y0+1)`; this
holds on the numpy path and the fallback path alike. -/
theorem image_window_spec (u : Bool) (ctl : Ctl) (img : Img)
    (rotation : Option Int) (x y : Int) (win : Window) (px : List Nat)
    (h : image u ctl img rotation x y = Except.ok (win, px)) :
    win = ⟨x, y, x + ((effectiveImg ctl img rotation).width : Int) - 1,
            y + ((effectiveImg ctl img rotation).height : Int) - 1⟩ ∧
    px.length = (effectiveImg ctl img rotation).width *
      (effectiveImg ctl img rotation).height * 3 ∧
    (win.x1 - win.x0 + 1) * (win.y1 - win.y0 + 1) * 3 = (px.length : Int) := by
  obtain ⟨hw, hp⟩ := image_ok_elim u ctl img rotation x y win px h
  have hlen : px.length = (effectiveImg ctl img rotation).width *
      (effectiveImg ctl img rotation).height * 3 := by
    rw [hp]
    cases u
    · exact fallbackPixels_length _
    · show (numpyPixels (effectiveImg ctl img rotation)).length = _
      rw [numpyPixels_length]
      ring
  refine ⟨hw, hlen, ?_⟩
  rw [hlen, hw]
  show (x + ((effectiveImg ctl img rotation).width : Int) - 1 - x + 1) *
      (y + ((effectiveImg ctl img rotation).height : Int) - 1 - y + 1) * 3 =
      (((effectiveImg ctl img rotation).width *
        (effectiveImg ctl img rotation).height * 3 : Nat) : Int)
  push_cast
  ring

/-- C3 witness: the theorem applied to a concrete 2x2 RGB image drawn at
the origin of a 320x480 panel. -/
theorem image_window_spec_witness :
    (⟨0, 0, 1, 1⟩ : Window) =
      ⟨0, 0,
        0 + ((effectiveImg (init 320 480 0) sampleImg none).width : Int) - 1,
        0 + ((effectiveImg (init 320 480 0) sampleImg none).height : Int) - 1⟩ ∧
    ([8, 250, 16, 8, 250, 16, 8, 250, 16, 8, 250, 16] : List Nat).length =
      (effectiveImg (init 320 480 0) sampleImg none).width *
        (effectiveImg (init 320 480 0) sampleImg none).height * 3 ∧
    ((⟨0, 0, 1, 1⟩ : Window).x1 - (⟨0, 0, 1, 1⟩ : Window).x0 + 1) *
        ((⟨0, 0, 1, 1⟩ : Window).y1 - (⟨0, 0, 1, 1⟩ : Window).y0 + 1) * 3 =
      (([8, 250, 16, 8, 250, 16, 8, 250, 16, 8, 250, 16] : List Nat).length :
        Int) :=
  image_window_spec true (init 320 480 0) sampleImg none 0 0 ⟨0, 0, 1, 1⟩
    [8, 250, 16, 8, 250, 16, 8, 250, 16, 8, 250, 16] (by rfl)

/-- C4: `image` raises a validation error exactly when the color mode is
not RGB/RGBA, or the effective rotation (defaulting to the controller's)
is not one of 0/90/180/270, or the placed buffer exceeds the panel after
rotation; and an erroring call emits no bus traffic at all. -/
theorem image_validation_spec (u : Bool) (ctl : Ctl) (img : Img)
    (rotation : Option Int) (x y : Int) :
    ((∃ e, image u ctl img rotation x y = Except.error e) ↔
      (¬ (img.mode = "RGB" ∨ img.mode = "RGBA") ∨
        ¬ (rotation.getD ctl.rotation = 0 ∨ rotation.getD ctl.rotation = 90 ∨
            rotation.getD ctl.rotation = 180 ∨
            rotation.getD ctl.rotation = 270) ∨
        x + ((effectiveImg ctl img rotation).width : Int) > (ctl.width : Int) ∨
        y + ((effectiveImg ctl img rotation).height : Int) >
          (ctl.height : Int))) ∧
    ∀ e, image u ctl img rotation x y = Except.error e →
      imageWrites u ctl img rotation x y = [] := by
  refine ⟨image_error_iff u ctl img rotation x y, ?_⟩
  intro e he
  simp [imageWrites, he]

/-- C4 witness: the theorem applied to a concrete call (a 2x2 image in
the unsupported mode "L" on a 320x480 panel). -/
theorem image_validation_spec_witness :
    ((∃ e, image true (init 320 480 0) ⟨"L", 2, 2, fun _ _ => (0, 0, 0)⟩
        none 0 0 = Except.error e) ↔
      (¬ ((⟨"L", 2, 2, fun _ _ => (0, 0, 0)⟩ : Img).mode = "RGB" ∨
          (⟨"L", 2, 2, fun _ _ => (0, 0, 0)⟩ : Img).mode = "RGBA") ∨
        ¬ ((none : Option Int).getD (init 320 480 0).rotation = 0 ∨
            (none : Option Int).getD (init 320 480 0).rotation = 90 ∨
            (none : Option Int).getD (init 320 480 0).rotation = 180 ∨
            (none : Option Int).getD (init 320 480 0).rotation = 270) ∨
        (0 : Int) + ((effectiveImg (init 320 480 0)
            ⟨"L", 2, 2, fun _ _ => (0, 0, 0)⟩ none).width : Int) >
          ((init 320 480 0).width : Int) ∨
        (0 : Int) + ((effectiveImg (init 320 480 0)
            ⟨"L", 2, 2, fun _ _ => (0, 0, 0)⟩ none).height : Int) >
          ((init 320 480 0).height : Int))) ∧
    ∀ e, image true (init 320 480 0) ⟨"L", 2, 2, fun _ _ => (0, 0, 0)⟩
        none 0 0 = Except.error e →
      imageWrites true (init 320 480 0) ⟨"L", 2, 2, fun _ _ => (0, 0, 0)⟩
        none 0 0 = [] :=
  image_validation_spec true (init 320 480 0)
    ⟨"L", 2, 2, fun _ _ => (0, 0, 0)⟩ none 0 0

/-- C7: the streamed bytes of every successful `image` call are
row-major with origin top-left: for row `j` and column `i` of the
effective buffer, the three bytes at offset `3*(j*imwidth+i)` are the
scaled R, G, B channels (in that order) of source pixel `(i, j)` — on
both branches, even though the fallback loop iterates columns in its
outer loop. -/
theorem image_row_major_spec (u : Bool) (ctl : Ctl) (img : Img)
    (rotation : Option Int) (x y : Int) (win : Window) (px : List Nat)
    (h : image u ctl img rotation x y = Except.ok (win, px)) (i j : Nat)
    (hi : i < (effectiveImg ctl img rotation).width)
    (hj : j < (effectiveImg ctl img rotation).height) :
    px[3 * (j * (effectiveImg ctl img rotation).width + i)]? =
      some ((((effectiveImg ctl img rotation).px i j).1 >>> 3) * 255 / 31) ∧
    px[3 * (j * (effectiveImg ctl img rotation).width + i) + 1]? =
      some ((((effectiveImg ctl img rotation).px i j).2.1 >>> 2) * 255 / 63) ∧
    px[3 * (j * (effectiveImg ctl img rotation).width + i) + 2]? =
      some ((((effectiveImg ctl img rotation).px i j).2.2 >>> 3) * 255 / 31) := by
  obtain ⟨hw, hp⟩ := image_ok_elim u ctl img rotation x y win px h
  have hpx : px = numpyPixels (effectiveImg ctl img rotation) := by
    rw [hp]
    cases u
    · exact (numpyPixels_eq_fallbackPixels _).symm
    · rfl
  obtain ⟨b1, b2, b3⟩ := numpyPixel_entries
    ((effectiveImg ctl img rotation).px i j)
    (px_lt _ _ _).1 (px_lt _ _ _).2.1 (px_lt _ _ _).2.2
  have g0 := numpyPixels_getElem (effectiveImg ctl img rotation) i j 0 hi hj
    (by norm_num)
  rw [Nat.add_zero] at g0
  have g1 := numpyPixels_getElem (effectiveImg ctl img rotation) i j 1 hi hj
    (by norm_num)
  have g2 := numpyPixels_getElem (effectiveImg ctl img rotation) i j 2 hi hj
    (by norm_num)
  rw [hpx]
  exact ⟨g0.trans b1, g1.trans b2, g2.trans b3⟩

/-- C7 witness: the theorem applied at pixel (0, 1) of a concrete 2x2
image call. -/
theorem image_row_major_spec_witness :
    ([8, 250, 16, 8, 250, 16, 8, 250, 16, 8, 250, 16] : List Nat)[3 *
        (1 * (effectiveImg (init 320 480 0) sampleImg none).width + 0)]? =
      some ((((effectiveImg (init 320 480 0) sampleImg none).px 0 1).1 >>> 3)
        * 255 / 31) ∧
    ([8, 250, 16, 8, 250, 16, 8, 250, 16, 8, 250, 16] : List Nat)[3 *
        (1 * (effectiveImg (init 320 480 0) sampleImg none).width + 0) + 1]? =
      some ((((effectiveImg (init 320 480 0) sampleImg none).px 0 1).2.1 >>> 2)
        * 255 / 63) ∧
    ([8, 250, 16, 8, 250, 16, 8, 250, 16, 8, 250, 16] : List Nat)[3 *
        (1 * (effectiveImg (init 320 480 0) sampleImg none).width + 0) + 2]? =
      some ((((effectiveImg (init 320 480 0) sampleImg none).px 0 1).2.2 >>> 3)
        * 255 / 31) :=
  image_row_major_spec true (init 320 480 0) sampleImg none 0 0 ⟨0, 0, 1, 1⟩
    [8, 250, 16, 8, 250, 16, 8, 250, 16, 8, 250, 16] (by rfl) 0 1
    (by decide) (by decide)

/-- C5: `scroll(None)` performs no bus write, changes no state and
returns the stored offset; `scroll(dy)` stores
`(previous + dy) mod height`, writes register `0x37` with that value as
a 2-byte big-endian payload, and returns nothing; a following
`scroll(None)` returns the new value.  With height 480: offset 0 and
`scroll(500)` give 20; offset 20 and `scroll(-30)` give 470. -/
theorem scroll_spec (ctl : Ctl) (dy : Int) (hh : 0 < ctl.height)
    (hle : ctl.height ≤ 65536) :
    scroll ctl none = (some ctl.scroll, ctl, []) ∧
    scroll ctl (some dy) =
      (none,
       { ctl with scroll := Int.fmod (ctl.scroll + dy) (ctl.height : Int) },
       [⟨0x37, packH (Int.fmod (ctl.scroll + dy) (ctl.height : Int))⟩]) ∧
    packH (Int.fmod (ctl.scroll + dy) (ctl.height : Int)) =
      some [(Int.fmod (ctl.scroll + dy) (ctl.height : Int)).toNat / 256,
            (Int.fmod (ctl.scroll + dy) (ctl.height : Int)).toNat % 256] ∧
    (scroll (scroll ctl (some dy)).2.1 none).1 =
      some (Int.fmod (ctl.scroll + dy) (ctl.height : Int)) ∧
    (scroll (init 320 480 0) (some 500)).2.1.scroll = 20 ∧
    (scroll { init 320 480 0 with scroll := 20 } (some (-30))).2.1.scroll =
      470 := by
  have hpos : (0 : Int) < (ctl.height : Int) := by exact_mod_cast hh
  have h0 : 0 ≤ Int.fmod (ctl.scroll + dy) (ctl.height : Int) :=
    Int.fmod_nonneg' _ hpos
  have h1 : Int.fmod (ctl.scroll + dy) (ctl.height : Int) <
      (ctl.height : Int) := Int.fmod_lt_of_pos _ hpos
  have h2 : (ctl.height : Int) ≤ 65536 := by exact_mod_cast hle
  refine ⟨rfl, rfl, ?_, rfl, by decide, by decide⟩
  unfold packH
  rw [if_pos ⟨h0, by omega⟩]

/-- C5 witness: the theorem applied at height 480, offset 0, dy 500. -/
theorem scroll_spec_witness :
    0 < (init 320 480 0).height ∧ (init 320 480 0).height ≤ 65536 ∧
    (scroll (init 320 480 0) (some 500)).2.1.scroll = 20 :=
  ⟨by decide, by decide,
    (scroll_spec (init 320 480 0) 500 (by decide) (by decide)).2.2.2.2.1⟩

/-- C6: the init table contains exactly the fifteen listed registers in
order, each with its exact parameter payload, the final `0x11`/`0x29`
entries carrying a no-data `none` payload; and the drawing command
constants are COLUMN_SET 0x2A, PAGE_SET 0x2B, RAM_WRITE 0x2C,
RAM_READ 0x2E. -/
theorem init_table_spec :
    _INIT.map Prod.fst = [0xE0, 0xE1, 0xC0, 0xC1, 0xC5, 0x36, 0x3A, 0xB0,
      0xB1, 0xB4, 0xB6, 0xE9, 0xF7, 0x11, 0x29] ∧
    _INIT.lookup 0xE0 = some (some [0x00, 0x03, 0x09, 0x08, 0x16, 0x0A, 0x3F,
      0x78, 0x4C, 0x09, 0x0A, 0x08, 0x16, 0x1A, 0x0F]) ∧
    _INIT.lookup 0xE1 = some (some [0x00, 0x16, 0x19, 0x03, 0x0F, 0x05, 0x32,
      0x45, 0x46, 0x04, 0x0E, 0x0D, 0x35, 0x37, 0x0F]) ∧
    _INIT.lookup 0xC0 = some (some [0x17, 0x15]) ∧
    _INIT.lookup 0xC1 = some (some [0x41]) ∧
    _INIT.lookup 0xC5 = some (some [0x00, 0x12, 0x80]) ∧
    _INIT.lookup 0x36 = some (some [0x48]) ∧
    _INIT.lookup 0x3A = some (some [0x66]) ∧
    _INIT.lookup 0xB0 = some (some [0x80]) ∧
    _INIT.lookup 0xB1 = some (some [0xA0]) ∧
    _INIT.lookup 0xB4 = some (some [0x02]) ∧
    _INIT.lookup 0xB6 = some (some [0x02, 0x02]) ∧
    _INIT.lookup 0xE9 = some (some [0x00]) ∧
    _INIT.lookup 0xF7 = some (some [0xA9, 0x51, 0x2C, 0x82]) ∧
    _INIT.lookup 0x11 = some none ∧
    _INIT.lookup 0x29 = some none ∧
    _COLUMN_SET = 0x2A ∧ _PAGE_SET = 0x2B ∧ _RAM_WRITE = 0x2C ∧
    _RAM_READ = 0x2E := by
  exact ⟨rfl, rfl, rfl, rfl, rfl, rfl, rfl, rfl, rfl, rfl, rfl, rfl, rfl,
    rfl, rfl, rfl, rfl, rfl, rfl, rfl⟩

lemma step_height (ctl : Ctl) (op : Op) : (step ctl op).height = ctl.height := by
  cases op <;> rfl

lemma step_scroll_invariant (height : Nat) (hh : 0 < height) (ctl : Ctl)
    (hhc : ctl.height = height) (h0 : 0 ≤ ctl.scroll)
    (h1 : ctl.scroll < (height : Int)) (op : Op) :
    0 ≤ (step ctl op).scroll ∧ (step ctl op).scroll < (height : Int) := by
  subst hhc
  cases op with
  | scrollBy dy =>
    have hpos : (0 : Int) < (ctl.height : Int) := by exact_mod_cast hh
    exact ⟨Int.fmod_nonneg' _ hpos, Int.fmod_lt_of_pos (ctl.scroll + dy) hpos⟩
  | fill color => exact ⟨h0, h1⟩
  | pixel x y color => exact ⟨h0, h1⟩
  | img u im r x y => exact ⟨h0, h1⟩
  | scrollQuery => exact ⟨h0, h1⟩

lemma runOps_invariant (height : Nat) (hh : 0 < height) (ops : List Op) :
    ∀ ctl, ctl.height = height → 0 ≤ ctl.scroll →
      ctl.scroll < (height : Int) →
      (runOps ctl ops).height = height ∧ 0 ≤ (runOps ctl ops).scroll ∧
        (runOps ctl ops).scroll < (height : Int) := by
  induction ops with
  | nil =>
    intro ctl hc h0 h1
    exact ⟨hc, h0, h1⟩
  | cons op ops ih =>
    intro ctl hc h0 h1
    have hs := step_scroll_invariant height hh ctl hc h0 h1 op
    have hch : (step ctl op).height = height := by
      rw [step_height]
      exact hc
    have hrest := ih (step ctl op) hch hs.1 hs.2
    simpa [runOps] using hrest

/-- C8: the stored scroll offset is 0 right after construction and stays
in `[0, height-1]` after every sequence of public operations;
`scroll(dy)` is the only operation that changes it. -/
theorem scroll_state_spec (width height : Nat) (rotation : Int)
    (ops : List Op) (hh : 0 < height) :
    (init width height rotation).scroll = 0 ∧
    0 ≤ (runOps (init width height rotation) ops).scroll ∧
    (runOps (init width height rotation) ops).scroll < (height : Int) ∧
    ∀ ctl op, (∀ dy, op ≠ Op.scrollBy dy) →
      (step ctl op).scroll = ctl.scroll := by
  have h := runOps_invariant height hh ops (init width height rotation) rfl
    (le_refl 0) (by show (0 : Int) < (height : Int); exact_mod_cast hh)
  refine ⟨rfl, h.2.1, h.2.2, ?_⟩
  intro ctl op hne
  cases op with
  | scrollBy dy => exact absurd rfl (hne dy)
  | fill color => rfl
  | pixel x y color => rfl
  | img u im r x y => rfl
  | scrollQuery => rfl

/-- C8 witness: the theorem applied to a 320x480 controller and a
concrete operation sequence. -/
theorem scroll_state_spec_witness :
    (0 : Nat) < 480 ∧
    (runOps (init 320 480 0) [Op.scrollBy 500, Op.fill 0,
      Op.scrollBy (-700)]).scroll < (480 : Int) :=
  ⟨by decide, (scroll_state_spec 320 480 0 [Op.scrollBy 500, Op.fill 0,
    Op.scrollBy (-700)] (by decide)).2.2.1⟩

/-- C9: scroll updates compose additively modulo the height:
`scroll(a)` then `scroll(b)` leaves the same stored state as the single
call `scroll(a+b)`, and `scroll(0)` leaves the state unchanged. -/
theorem scroll_additivity_spec (ctl : Ctl) (a b : Int) (hh : 0 < ctl.height)
    (h0 : 0 ≤ ctl.scroll) (h1 : ctl.scroll < (ctl.height : Int)) :
    (scroll (scroll ctl (some a)).2.1 (some b)).2.1 =
      (scroll ctl (some (a + b))).2.1 ∧
    (scroll ctl (some 0)).2.1 = ctl := by
  have hbn : (0 : Int) ≤ (ctl.height : Int) := Int.natCast_nonneg _
  constructor
  · have he : Int.fmod
        (Int.fmod (ctl.scroll + a) (ctl.height : Int) + b)
        (ctl.height : Int) =
        Int.fmod (ctl.scroll + (a + b)) (ctl.height : Int) := by
      rw [Int.fmod_eq_emod _ hbn, Int.fmod_eq_emod _ hbn,
        Int.fmod_eq_emod _ hbn, Int.emod_add_emod, add_assoc]
    exact congrArg (fun s => Ctl.mk ctl.width ctl.height ctl.rotation s) he
  · have he : Int.fmod (ctl.scroll + 0) (ctl.height : Int) = ctl.scroll := by
      rw [add_zero]
      exact Int.fmod_eq_of_lt h0 h1
    show { ctl with scroll := Int.fmod (ctl.scroll + 0) (ctl.height : Int) } =
      ctl
    rw [he]

/-- C9 witness: the theorem applied at height 480, offset 0, with
dy values 500 and -30. -/
theorem scroll_additivity_spec_witness :
    0 < (init 320 480 0).height ∧
    (scroll (scroll (init 320 480 0) (some 500)).2.1 (some (-30))).2.1 =
      (scroll (init 320 480 0) (some (500 + -30))).2.1 :=
  ⟨by decide, (scroll_additivity_spec (init 320 480 0) 500 (-30) (by decide)
    (by decide) (by decide)).1⟩

/-- C10: the placement check of `image` guards only the far edge: a call
with negative offset `x = -1` but `x + imwidth ≤ width` raises no
validation error and streams the full buffer, with an addressing window
whose start coordinate is negative. -/
theorem image_negative_offset_spec :
    ∃ win px, image true (init 320 480 0) sampleImg none (-1) 0 =
        Except.ok (win, px) ∧ win.x0 < 0 ∧ px.length = 2 * 2 * 3 := by
  refine ⟨⟨-1, 0, 0, 1⟩, [8, 250, 16, 8, 250, 16, 8, 250, 16, 8, 250, 16],
    by rfl, by decide, by decide⟩

end ILI9488
